import Mathlib

/-!
Shallow embedding of the CLI agent implemented in `src/backend/src/lib/tool.ts`.

The embedding covers:

* the transcript data model (`Role`, `ToolCall`, `Message`) and the initial
  transcript `messages` (lines 9-21 of the source);
* the tool executor `webSearch` (lines 195-231), with the external search
  provider (`tvly.search`) abstracted as a function `String → SearchOutcome`:
  `SearchOutcome.ok results` models a successful provider response and
  `SearchOutcome.err` models a thrown network/provider error, which the
  executor catches;
* the tool phase of `main` (lines 110-138) as `processToolCall`/`toolPhase`,
  with `JSON.parse` of `toolCall.function.arguments` abstracted as a function
  `String → Option String` returning the parsed `query` field (`none` models
  a parse failure, i.e. a thrown `SyntaxError`), and the executor abstracted
  as a total function `String → String` (the real `webSearch` never throws);
* the per-user-turn agent loop of `main` (lines 31-190) as
  `innerStep`/`runInner`/`runTurn`, with the completion provider
  (`groq.chat.completions.create`) abstracted as an oracle
  `Nat → CallOutcome` giving the outcome of the n-th provider call issued
  during the turn.  Every issued provider call is recorded in a trace of
  `toolsEnabled` flags, in issue order.
-/

namespace GenAI

/-- A tool-call request emitted by the model.  `functionName` and
`argumentsJson` embed `toolCall.function.name` and
`toolCall.function.arguments` of the groq SDK object; `id` is `toolCall.id`. -/
structure ToolCall where
  id : String
  functionName : String
  argumentsJson : String
  deriving DecidableEq, Repr

/-- Message roles of the transcript (`system | user | assistant | tool`). -/
inductive Role where
  | system
  | user
  | assistant
  | tool
  deriving DecidableEq, Repr

/-- One transcript entry, as pushed onto the global `messages` array.
`content` is `none` for the assistant messages that carry tool-call requests
(`content: null` in the source); `tool_call_id` is set only on `tool`
messages; `tool_calls` is non-empty only on assistant tool-call records. -/
structure Message where
  role : Role
  content : Option String
  tool_call_id : Option String
  tool_calls : List ToolCall
  deriving DecidableEq, Repr

/-- A `user` message as pushed at line 39: `{ role: "user", content: question }`. -/
def userMsg (content : String) : Message :=
  ⟨Role.user, some content, none, []⟩

/-- An `assistant` text message as pushed at lines 86, 150, 183. -/
def assistantMsg (content : String) : Message :=
  ⟨Role.assistant, some content, none, []⟩

/-- The assistant record of one tool call as pushed at lines 117-121:
`{ role: "assistant", content: null, tool_calls: [toolCall] }`. -/
def assistantToolCallMsg (tc : ToolCall) : Message :=
  ⟨Role.assistant, none, none, [tc]⟩

/-- A `tool` message as pushed at lines 124-128 and 131-135:
`{ role: "tool", tool_call_id: ..., content: ... }`. -/
def toolMsg (callId : String) (content : String) : Message :=
  ⟨Role.tool, some content, some callId, []⟩

/-- The fixed system instruction, lines 10-20 of the source. -/
def systemMessage : Message :=
  ⟨Role.system,
    some ("You are a smart helpful assistant who answers the asked questions. You have access to the following tool:\n      \n1. webSearch - Search the latest information and real time data on the internet.\n      \nWhen you need to use the webSearch tool, respond with a JSON object containing:\n- \"query\": The search query string\n\nImportant: Always use the tool calling format specified by the API. Do not use XML or other formats."),
    none, []⟩

/-- The initial transcript (lines 9-21): a single system message. -/
def messages : List Message := [systemMessage]

/-- A search result returned by the external search provider: optional title,
url, optional content (spec `SearchResult`; the tavily result record). -/
structure SearchResult where
  title : Option String
  url : String
  content : Option String
  deriving DecidableEq, Repr

/-- Outcome of the external provider call `tvly.search`: a result list, or a
thrown network/provider error. -/
inductive SearchOutcome where
  | ok (results : List SearchResult)
  | err
  deriving DecidableEq, Repr

/-- JavaScript `String.prototype.trim()`: drop whitespace from both ends.
Implemented structurally over the character list so that it evaluates. -/
def jsTrim (s : String) : String :=
  String.mk (((s.data.dropWhile Char.isWhitespace).reverse.dropWhile Char.isWhitespace).reverse)

/-- JavaScript `x || d` on an optional string: `null`/`undefined` and the
empty string are falsy, so both fall back to the default. -/
def jsOr (x : Option String) (d : String) : String :=
  match x with
  | some t => if t.isEmpty then d else t
  | none => d

/-- The content truncation of `webSearch` (lines 212-216):
`content.substring(0, 500) + "..."` when the content exceeds 500 characters,
the content unchanged otherwise. -/
def truncateContent (content : String) : String :=
  if content.length > 500 then content.take 500 ++ "..." else content

/-- One formatted result block, the body of the `.map((result, index) => ...)`
at lines 211-220; `index` is the 0-based position, rendered 1-based. -/
def formatResult (index : Nat) (result : SearchResult) : String :=
  "[" ++ toString (index + 1) ++ "] Title: " ++ jsOr result.title "No title" ++
    "\nURL: " ++ result.url ++ "\nContent: " ++ truncateContent (jsOr result.content "")

/-- The `.map((result, index) => ...)` pipeline applied to the (already
`slice(0, 3)`-limited) result list, indices counted up from `index`. -/
def formatResults : Nat → List SearchResult → List String
  | _, [] => []
  | index, result :: rest => formatResult index result :: formatResults (index + 1) rest

/-- The tool executor `webSearch` (lines 195-231).  The guard
`!query || !query.trim()` collapses to `jsTrim query = ""` on strings (the empty
string trims to itself).  The provider is passed as a function so that the
theorems quantify over every provider behaviour; a thrown provider error
(`SearchOutcome.err`) is caught and rendered as the apology text. -/
def webSearch (provider : String → SearchOutcome) (query : String) : String :=
  if jsTrim query = "" then "Error: No search query provided"
  else
    match provider query with
    | SearchOutcome.err =>
        "Error occurred while searching for \"" ++ query ++ "\". Please try again."
    | SearchOutcome.ok results =>
        if results.length > 0 then
          "Search Results for \"" ++ query ++ "\":\n\n" ++
            String.intercalate "\n\n" (formatResults 0 (results.take 3)) ++
            "\n\nTotal results found: " ++ toString results.length
        else
          "No results found for \"" ++ query ++ "\". Please try a different search query."

lemma jsOr_some_empty_default (c : String) : jsOr (some c) "" = c := by
  simp only [jsOr]
  split
  · next h => exact ((String.isEmpty_iff c).mp h).symm
  · rfl

lemma formatResults_length (index : Nat) (l : List SearchResult) :
    (formatResults index l).length = l.length := by
  induction l generalizing index with
  | nil => rfl
  | cons r rs ih => simp [formatResults, ih]

/-- Claim C4: a search-result content longer than 500 characters is rendered
as exactly its first 500 characters followed by `"..."`; content of at most
500 characters is rendered verbatim with no suffix; the rendered block ends
with exactly that (possibly truncated) content. -/
theorem truncation_law (c : String) :
    (500 < c.length → truncateContent c = c.take 500 ++ "...") ∧
    (c.length ≤ 500 → truncateContent c = c) ∧
    (∀ index title url, ∃ pre,
      formatResult index ⟨title, url, some c⟩ = pre ++ truncateContent c) := by
  refine ⟨?_, ?_, ?_⟩
  · intro h
    simp [truncateContent, h]
  · intro h
    have h2 : ¬ c.length > 500 := by omega
    simp [truncateContent, h2]
  · intro index title url
    refine ⟨"[" ++ toString (index + 1) ++ "] Title: " ++ jsOr title "No title" ++
      "\nURL: " ++ url ++ "\nContent: ", ?_⟩
    simp [formatResult, jsOr_some_empty_default, String.append_assoc]

/-- Concrete 501-character content used to exercise the truncation branch. -/
def longContent : String := String.mk (List.replicate 501 'a')

set_option maxRecDepth 4000 in
/-- Witness for `truncation_law` at a 501-character content and at `"abc"`. -/
theorem truncation_law_witness :
    truncateContent longContent = longContent.take 500 ++ "..." ∧
    truncateContent "abc" = "abc" :=
  ⟨(truncation_law longContent).1 (by decide),
   (truncation_law "abc").2.1 (by decide)⟩

/-- Claim C5: for a non-empty provider response with `n` results
(`0 < n ≤ 5`), `webSearch` renders exactly `min 3 n` blocks (so at most the
first 3 results), and the trailing count line reports `n`, the provider's
true total, not the number of rendered blocks. -/
theorem display_cap_law (provider : String → SearchOutcome) (query : String)
    (results : List SearchResult) (hq : ¬ jsTrim query = "")
    (hp : provider query = SearchOutcome.ok results)
    (h1 : 0 < results.length) (_h5 : results.length ≤ 5) :
    (formatResults 0 (results.take 3)).length = min 3 results.length ∧
    (formatResults 0 (results.take 3)).length ≤ 3 ∧
    webSearch provider query =
      "Search Results for \"" ++ query ++ "\":\n\n" ++
        String.intercalate "\n\n" (formatResults 0 (results.take 3)) ++
        "\n\nTotal results found: " ++ toString results.length := by
  refine ⟨?_, ?_, ?_⟩
  · rw [formatResults_length, List.length_take]
  · rw [formatResults_length, List.length_take]
    exact min_le_left _ _
  · simp [webSearch, hq, hp, h1]

/-- Five concrete provider results used to exercise the display cap. -/
def sampleResults : List SearchResult :=
  [⟨some "t1", "u1", some "c1"⟩, ⟨some "t2", "u2", some "c2"⟩,
   ⟨some "t3", "u3", some "c3"⟩, ⟨some "t4", "u4", some "c4"⟩,
   ⟨some "t5", "u5", some "c5"⟩]

/-- A provider that always returns the five sample results. -/
def sampleProvider : String → SearchOutcome := fun _ => SearchOutcome.ok sampleResults

/-- Witness for `display_cap_law`: five provider results, three rendered
blocks, count line reporting five. -/
theorem display_cap_law_witness :
    (formatResults 0 (sampleResults.take 3)).length = min 3 sampleResults.length ∧
    (formatResults 0 (sampleResults.take 3)).length ≤ 3 ∧
    webSearch sampleProvider "news" =
      "Search Results for \"" ++ "news" ++ "\":\n\n" ++
        String.intercalate "\n\n" (formatResults 0 (sampleResults.take 3)) ++
        "\n\nTotal results found: " ++ toString sampleResults.length :=
  display_cap_law sampleProvider "news" sampleResults (by decide) rfl
    (by decide) (by decide)

/-- Claim C6: for a query that is empty or whitespace-only, `webSearch`
returns exactly `"Error: No search query provided"`, for every provider
behaviour alike — so the provider is not consulted. -/
theorem empty_query_literal (provider : String → SearchOutcome) (query : String)
    (h : jsTrim query = "") :
    webSearch provider query = "Error: No search query provided" ∧
    ∀ provider2, webSearch provider2 query = webSearch provider query := by
  constructor
  · simp [webSearch, h]
  · intro provider2
    simp [webSearch, h]

/-- Witness for `empty_query_literal` at `""` and `"   "`. -/
theorem empty_query_literal_witness :
    webSearch (fun _ => SearchOutcome.err) "" = "Error: No search query provided" ∧
    webSearch (fun _ => SearchOutcome.err) "   " = "Error: No search query provided" :=
  ⟨(empty_query_literal (fun _ => SearchOutcome.err) "" (by decide)).1,
   (empty_query_literal (fun _ => SearchOutcome.err) "   " (by decide)).1⟩

/-- Claim C7: for every query and every provider behaviour (including a
thrown provider error), `webSearch` returns one of its four literal answer
shapes — it is a total function, no exception escapes — and when the provider
call fails on a non-empty query it returns the apology text, which names the
query. -/
theorem search_failure_swallowed (provider : String → SearchOutcome) (query : String) :
    (webSearch provider query = "Error: No search query provided" ∨
     webSearch provider query =
       "Error occurred while searching for \"" ++ query ++ "\". Please try again." ∨
     webSearch provider query =
       "No results found for \"" ++ query ++ "\". Please try a different search query." ∨
     ∃ results, provider query = SearchOutcome.ok results ∧
       webSearch provider query =
         "Search Results for \"" ++ query ++ "\":\n\n" ++
           String.intercalate "\n\n" (formatResults 0 (results.take 3)) ++
           "\n\nTotal results found: " ++ toString results.length) ∧
    (provider query = SearchOutcome.err → ¬ jsTrim query = "" →
      webSearch provider query =
        "Error occurred while searching for \"" ++ query ++ "\". Please try again." ∧
      ∃ pre post, webSearch provider query = pre ++ query ++ post) := by
  constructor
  · by_cases hq : jsTrim query = ""
    · left
      simp [webSearch, hq]
    · cases hp : provider query with
      | err =>
        right; left
        simp [webSearch, hq, hp]
      | ok results =>
        by_cases hr : results.length > 0
        · right; right; right
          exact ⟨results, rfl, by simp [webSearch, hq, hp, hr]⟩
        · right; right; left
          simp [webSearch, hq, hp, hr]
  · intro hp hq
    have h1 : webSearch provider query =
        "Error occurred while searching for \"" ++ query ++ "\". Please try again." := by
      simp [webSearch, hq, hp]
    exact ⟨h1, "Error occurred while searching for \"", "\". Please try again.", h1⟩

/-- Witness for `search_failure_swallowed`: a throwing provider on the query
`"paris"` yields the apology text naming the query. -/
theorem search_failure_swallowed_witness :
    webSearch (fun _ => SearchOutcome.err) "paris" =
      "Error occurred while searching for \"" ++ "paris" ++ "\". Please try again." ∧
    ∃ pre post, webSearch (fun _ => SearchOutcome.err) "paris" = pre ++ "paris" ++ post :=
  (search_failure_swallowed (fun _ => SearchOutcome.err) "paris").2 rfl (by decide)

/-!
The tool phase of `main` (lines 110-138).  `parseQuery` abstracts
`JSON.parse(toolCall.function.arguments)` followed by reading the `query`
field: `none` models a thrown parse error, `some q` a successful parse.
`exec` abstracts the (total, never-throwing) executor `webSearch` applied to
the parsed arguments.
-/

/-- Processing of one requested tool call (the body of the `for` loop at
lines 110-137): calls whose `functionName` is not `"webSearch"` are skipped
entirely; otherwise the arguments are parsed, and on success the executor
runs and the assistant tool-call record plus the tool result are appended,
while on a parse failure only an error `tool` message is appended. -/
def processToolCall (parseQuery : String → Option String) (exec : String → String)
    (msgs : List Message) (toolCall : ToolCall) : List Message :=
  if toolCall.functionName = "webSearch" then
    match parseQuery toolCall.argumentsJson with
    | some args =>
        msgs ++ [assistantToolCallMsg toolCall, toolMsg toolCall.id (exec args)]
    | none =>
        msgs ++ [toolMsg toolCall.id "Error: Invalid search parameters"]
  else msgs

/-- The whole `for (const toolCall of toolCalls)` loop: calls processed in
provider order. -/
def toolPhase (parseQuery : String → Option String) (exec : String → String)
    (msgs : List Message) (toolCalls : List ToolCall) : List Message :=
  toolCalls.foldl (processToolCall parseQuery exec) msgs

/-- The messages that one call contributes to the transcript. -/
def callBlock (parseQuery : String → Option String) (exec : String → String)
    (tc : ToolCall) : List Message :=
  if tc.functionName = "webSearch" then
    match parseQuery tc.argumentsJson with
    | some args => [assistantToolCallMsg tc, toolMsg tc.id (exec args)]
    | none => [toolMsg tc.id "Error: Invalid search parameters"]
  else []

/-- The concatenation of the per-call message blocks, in call order. -/
def callBlocks (parseQuery : String → Option String) (exec : String → String) :
    List ToolCall → List Message
  | [] => []
  | tc :: rest => callBlock parseQuery exec tc ++ callBlocks parseQuery exec rest

/-- Number of `tool`-role messages in a transcript fragment. -/
def countToolMsgs (msgs : List Message) : Nat :=
  (msgs.filter (fun m => m.role == Role.tool)).length

/-- Number of recognized tool-call requests (`functionName == "webSearch"`). -/
def recognizedCount (calls : List ToolCall) : Nat :=
  (calls.filter (fun tc => tc.functionName == "webSearch")).length

/-- Number of recognized tool-call requests whose arguments parse
successfully — the count named by the spec's transcript-accounting sentence. -/
def recognizedParsedCount (parseQuery : String → Option String)
    (calls : List ToolCall) : Nat :=
  (calls.filter
    (fun tc => tc.functionName == "webSearch" && (parseQuery tc.argumentsJson).isSome)).length

lemma processToolCall_eq_append (parseQuery : String → Option String)
    (exec : String → String) (msgs : List Message) (tc : ToolCall) :
    processToolCall parseQuery exec msgs tc = msgs ++ callBlock parseQuery exec tc := by
  by_cases h : tc.functionName = "webSearch"
  · cases hp : parseQuery tc.argumentsJson <;>
      simp [processToolCall, callBlock, h, hp]
  · simp [processToolCall, callBlock, h]

lemma toolPhase_eq_append (parseQuery : String → Option String)
    (exec : String → String) :
    ∀ (calls : List ToolCall) (msgs : List Message),
      toolPhase parseQuery exec msgs calls = msgs ++ callBlocks parseQuery exec calls := by
  intro calls
  induction calls with
  | nil => intro msgs; simp [toolPhase, callBlocks]
  | cons tc rest ih =>
    intro msgs
    have h1 : toolPhase parseQuery exec msgs (tc :: rest) =
        toolPhase parseQuery exec (processToolCall parseQuery exec msgs tc) rest := rfl
    rw [h1, ih, processToolCall_eq_append, callBlocks, List.append_assoc]

lemma countToolMsgs_append (a b : List Message) :
    countToolMsgs (a ++ b) = countToolMsgs a + countToolMsgs b := by
  simp [countToolMsgs, List.filter_append]

lemma countToolMsgs_callBlock (parseQuery : String → Option String)
    (exec : String → String) (tc : ToolCall) :
    countToolMsgs (callBlock parseQuery exec tc) =
      if tc.functionName = "webSearch" then 1 else 0 := by
  by_cases h : tc.functionName = "webSearch"
  · cases hp : parseQuery tc.argumentsJson <;>
      simp [callBlock, h, hp, countToolMsgs, assistantToolCallMsg, toolMsg]
  · simp [callBlock, h, countToolMsgs]

lemma countToolMsgs_callBlocks (parseQuery : String → Option String)
    (exec : String → String) (calls : List ToolCall) :
    countToolMsgs (callBlocks parseQuery exec calls) = recognizedCount calls := by
  induction calls with
  | nil => simp [callBlocks, countToolMsgs, recognizedCount]
  | cons tc rest ih =>
    rw [callBlocks, countToolMsgs_append, ih, countToolMsgs_callBlock]
    by_cases h : tc.functionName = "webSearch" <;>
      (simp [recognizedCount, List.filter_cons, h]; try omega)

/-- Claim C2 counterexample: one recognized call with unparseable arguments.
Exactly one `tool` message is appended although zero recognized calls have
parseable arguments, and that message is the whole appended block — it is not
preceded by any assistant tool-call record. -/
theorem toolPhase_count_mismatch_cex :
    countToolMsgs (toolPhase (fun _ => none) (fun _ => "")
      [] [⟨"call_1", "webSearch", "nope"⟩]) = 1 ∧
    recognizedParsedCount (fun _ => none) [⟨"call_1", "webSearch", "nope"⟩] = 0 ∧
    toolPhase (fun _ => none) (fun _ => "") [] [⟨"call_1", "webSearch", "nope"⟩] =
      [toolMsg "call_1" "Error: Invalid search parameters"] := by
  refine ⟨by decide, by decide, by decide⟩

/-- Claim C2, amended: during ToolPhase every recognized call appends exactly
one `tool` message, whether or not its arguments parse (so the `tool`-message
count equals the recognized-call count); a successfully parsed call appends
its assistant tool-call record immediately followed by its tool message; a
parse failure appends only the error `tool` message, with no preceding
assistant record, and the executor does not run for it. -/
theorem toolPhase_message_accounting (parseQuery : String → Option String)
    (exec : String → String) (msgs : List Message) (calls : List ToolCall) :
    toolPhase parseQuery exec msgs calls = msgs ++ callBlocks parseQuery exec calls ∧
    countToolMsgs (toolPhase parseQuery exec msgs calls) =
      countToolMsgs msgs + recognizedCount calls ∧
    (∀ tc q, tc.functionName = "webSearch" → parseQuery tc.argumentsJson = some q →
      callBlock parseQuery exec tc = [assistantToolCallMsg tc, toolMsg tc.id (exec q)]) ∧
    (∀ tc, tc.functionName = "webSearch" → parseQuery tc.argumentsJson = none →
      callBlock parseQuery exec tc = [toolMsg tc.id "Error: Invalid search parameters"] ∧
      ∀ exec2, callBlock parseQuery exec2 tc = callBlock parseQuery exec tc) := by
  refine ⟨toolPhase_eq_append parseQuery exec calls msgs, ?_, ?_, ?_⟩
  · rw [toolPhase_eq_append, countToolMsgs_append, countToolMsgs_callBlocks]
  · intro tc q h hp
    simp [callBlock, h, hp]
  · intro tc h hp
    exact ⟨by simp [callBlock, h, hp], fun exec2 => by simp [callBlock, h, hp]⟩

/-- Witness for `toolPhase_message_accounting` on three concrete calls: one
parsed, one failing to parse, one unrecognized. -/
theorem toolPhase_message_accounting_witness :
    countToolMsgs (toolPhase (fun a => if a = "g" then some "q" else none) (fun _ => "res")
      [] [⟨"i1", "webSearch", "g"⟩, ⟨"i2", "webSearch", "b"⟩, ⟨"i3", "other", "g"⟩]) =
      countToolMsgs [] +
        recognizedCount [⟨"i1", "webSearch", "g"⟩, ⟨"i2", "webSearch", "b"⟩, ⟨"i3", "other", "g"⟩] ∧
    callBlock (fun a => if a = "g" then some "q" else none) (fun _ => "res")
      ⟨"i2", "webSearch", "b"⟩ = [toolMsg "i2" "Error: Invalid search parameters"] := by
  have h := toolPhase_message_accounting (fun a => if a = "g" then some "q" else none)
    (fun _ => "res") [] [⟨"i1", "webSearch", "g"⟩, ⟨"i2", "webSearch", "b"⟩, ⟨"i3", "other", "g"⟩]
  exact ⟨h.2.1, (h.2.2.2 ⟨"i2", "webSearch", "b"⟩ rfl (by decide)).1⟩

/-- Claim C8 counterexample: a call named `"search"` is ignored (nothing
appended), while a call named `"webSearch"` — a name other than `"search"` —
is processed and appends two messages, so recognition is keyed to
`"webSearch"`, not `"search"`. -/
theorem dispatch_name_cex :
    toolPhase (fun _ => some "x") (fun _ => "r") [] [⟨"c1", "search", "a"⟩] = [] ∧
    (toolPhase (fun _ => some "x") (fun _ => "r") [] [⟨"c2", "webSearch", "a"⟩]).length = 2 := by
  refine ⟨by decide, by decide⟩

/-- Claim C8, amended: during ToolPhase only requested calls whose
`functionName` equals `"webSearch"` are processed; a call with any other
`functionName` (including `"search"`) is a no-op — no transcript message is
appended for it and its processing does not depend on the parser or the
executor. -/
theorem dispatch_requires_webSearch_name (parseQuery : String → Option String)
    (exec : String → String) (msgs : List Message) (tc : ToolCall) :
    (tc.functionName ≠ "webSearch" →
      processToolCall parseQuery exec msgs tc = msgs ∧
      ∀ parseQuery2 exec2, processToolCall parseQuery2 exec2 msgs tc = msgs) ∧
    (tc.functionName = "webSearch" →
      msgs.length < (processToolCall parseQuery exec msgs tc).length) := by
  constructor
  · intro h
    exact ⟨by simp [processToolCall, h],
      fun parseQuery2 exec2 => by simp [processToolCall, h]⟩
  · intro h
    cases hp : parseQuery tc.argumentsJson <;>
      simp [processToolCall, h, hp]

/-- Witness for `dispatch_requires_webSearch_name` at a `"search"`-named call
and a `"webSearch"`-named call. -/
theorem dispatch_requires_webSearch_name_witness :
    processToolCall (fun _ => some "x") (fun _ => "r") [] ⟨"c3", "search", "a"⟩ = [] ∧
    ([] : List Message).length <
      (processToolCall (fun _ => some "x") (fun _ => "r") [] ⟨"c4", "webSearch", "a"⟩).length :=
  ⟨((dispatch_requires_webSearch_name (fun _ => some "x") (fun _ => "r") []
      ⟨"c3", "search", "a"⟩).1 (by decide)).1,
   (dispatch_requires_webSearch_name (fun _ => some "x") (fun _ => "r") []
      ⟨"c4", "webSearch", "a"⟩).2 rfl⟩

/-- Claim C10: for a recognized call whose arguments fail to parse, the
appended error `tool` message carries `tool_call_id = some tc.id`, the id of
the failing call. -/
theorem error_tool_message_correlated (parseQuery : String → Option String)
    (exec : String → String) (msgs : List Message) (tc : ToolCall)
    (h1 : tc.functionName = "webSearch") (h2 : parseQuery tc.argumentsJson = none) :
    processToolCall parseQuery exec msgs tc =
      msgs ++ [toolMsg tc.id "Error: Invalid search parameters"] ∧
    (toolMsg tc.id "Error: Invalid search parameters").tool_call_id = some tc.id := by
  constructor
  · simp [processToolCall, h1, h2]
  · rfl

/-- Witness for `error_tool_message_correlated` at a concrete failing call. -/
theorem error_tool_message_correlated_witness :
    processToolCall (fun _ => none) (fun _ => "") [] ⟨"abc", "webSearch", "zz"⟩ =
      [] ++ [toolMsg "abc" "Error: Invalid search parameters"] ∧
    (toolMsg "abc" "Error: Invalid search parameters").tool_call_id = some "abc" :=
  error_tool_message_correlated (fun _ => none) (fun _ => "") []
    ⟨"abc", "webSearch", "zz"⟩ rfl rfl

/-!
The per-user-turn agent loop of `main` (lines 31-190).  One provider call
(`groq.chat.completions.create`) is abstracted as a `CallOutcome`; the oracle
`Nat → CallOutcome` gives the outcome of the n-th call issued during the
turn.  `TurnState.trace` records, in issue order, the `toolsEnabled` flag of
every provider call made so far: the first-pass call sends the tool schema
(`true`), the second-pass call after tool results and the fallback call send
none (`false`).
-/

/-- Outcome of one `groq.chat.completions.create` call, as the source
distinguishes them: `ok content toolCalls` is a response whose first choice
has the given `message.content` (`none` for `null`) and `message.tool_calls`;
`noChoice` is a response with no first choice (line 74); the `err` outcomes
are thrown errors, split on the `status === 400 && code === "tool_use_failed"`
test of line 161. -/
inductive CallOutcome where
  | ok (content : Option String) (toolCalls : List ToolCall)
  | noChoice
  | errToolUseFailed
  | errOther
  deriving DecidableEq, Repr

/-- JavaScript truthiness of `message.content`: `null`/`undefined` and the
empty string are falsy. -/
def contentTruthy : Option String → Bool
  | none => false
  | some t => !t.isEmpty

/-- State of one user turn: the transcript, the trace of `toolsEnabled`
flags of the provider calls issued so far, and the index of the next call. -/
structure TurnState where
  msgs : List Message
  trace : List Bool
  callIdx : Nat
  deriving DecidableEq, Repr

/-- Result of the `try` body (the inner `while (true)` at lines 45-156):
the turn settled normally, or an error was thrown (tagged with whether it is
the `tool_use_failed` kind), or the iteration bound ran out. -/
inductive InnerResult where
  | settled (s : TurnState)
  | thrown (toolUseFailed : Bool) (s : TurnState)
  | outOfFuel (s : TurnState)
  deriving DecidableEq, Repr

/-- The turn state carried by an `InnerResult`. -/
def InnerResult.state : InnerResult → TurnState
  | .settled s => s
  | .thrown _ s => s
  | .outOfFuel s => s

/-- Result of one iteration of the inner `while (true)` body: either the
loop exits (`done`) or it falls through to the next iteration (`next`). -/
inductive StepOut where
  | done (r : InnerResult)
  | next (s : TurnState)
  deriving DecidableEq, Repr

/-- One iteration of the inner `while (true)` body (lines 45-156).  The
first-pass call (tools enabled) is issued and recorded; on thrown errors the
iteration aborts; on truthy content the assistant message is appended and the
turn settles; with neither content nor tool calls the loop breaks with
nothing appended (the re-check of `message.content` at lines 98-103 is dead
there); otherwise the tool phase runs and the second-pass call (tools
disabled, lines 141-145) is issued and recorded.  If the second pass yields
truthy content it is appended and the turn settles (line 154); on any other
outcome with no thrown error — no choice, or no content — the body reaches
its end without a `break` and the loop re-enters at line 45. -/
def innerStep (o : Nat → CallOutcome) (parseQuery : String → Option String)
    (exec : String → String) (s : TurnState) : StepOut :=
  match o s.callIdx with
  | .noChoice => .done (.settled ⟨s.msgs, s.trace ++ [true], s.callIdx + 1⟩)
  | .errToolUseFailed => .done (.thrown true ⟨s.msgs, s.trace ++ [true], s.callIdx + 1⟩)
  | .errOther => .done (.thrown false ⟨s.msgs, s.trace ++ [true], s.callIdx + 1⟩)
  | .ok content toolCalls =>
    if contentTruthy content then
      .done (.settled ⟨s.msgs ++ [assistantMsg (content.getD "")],
        s.trace ++ [true], s.callIdx + 1⟩)
    else if toolCalls.isEmpty then
      .done (.settled ⟨s.msgs, s.trace ++ [true], s.callIdx + 1⟩)
    else
      match o (s.callIdx + 1) with
      | .errToolUseFailed =>
        .done (.thrown true ⟨toolPhase parseQuery exec s.msgs toolCalls,
          s.trace ++ [true, false], s.callIdx + 2⟩)
      | .errOther =>
        .done (.thrown false ⟨toolPhase parseQuery exec s.msgs toolCalls,
          s.trace ++ [true, false], s.callIdx + 2⟩)
      | .noChoice =>
        .next ⟨toolPhase parseQuery exec s.msgs toolCalls,
          s.trace ++ [true, false], s.callIdx + 2⟩
      | .ok c2 _ =>
        if contentTruthy c2 then
          .done (.settled ⟨toolPhase parseQuery exec s.msgs toolCalls ++
            [assistantMsg (c2.getD "")], s.trace ++ [true, false], s.callIdx + 2⟩)
        else
          .next ⟨toolPhase parseQuery exec s.msgs toolCalls,
            s.trace ++ [true, false], s.callIdx + 2⟩

/-- The inner `while (true)` loop, bounded by `fuel` iterations (the source
loop is unbounded; every theorem quantifies over or instantiates the bound). -/
def runInner (o : Nat → CallOutcome) (parseQuery : String → Option String)
    (exec : String → String) : Nat → TurnState → InnerResult
  | 0, s => .outOfFuel s
  | fuel + 1, s =>
    match innerStep o parseQuery exec s with
    | .done r => r
    | .next s2 => runInner o parseQuery exec fuel s2

/-- The `catch` block (lines 157-189).  Only a `tool_use_failed` error takes
the fallback path: pop the last message, re-append a `user` message with the
turn's question, issue the fallback call with no tools (recorded `false`),
and append its content if the first choice has truthy content; any other
error settles the turn silently. -/
def fallbackStep (o : Nat → CallOutcome) (question : String) : InnerResult → TurnState
  | .settled s => s
  | .outOfFuel s => s
  | .thrown false s => s
  | .thrown true s =>
    let s1 : TurnState :=
      ⟨s.msgs.dropLast ++ [userMsg question], s.trace ++ [false], s.callIdx + 1⟩
    match o s.callIdx with
    | .ok c _ =>
      if contentTruthy c then ⟨s1.msgs ++ [assistantMsg (c.getD "")], s1.trace, s1.callIdx⟩
      else s1
    | _ => s1

/-- One full user turn (lines 39-189): append the `user` message, run the
inner loop, run the `catch` handling of a thrown error. -/
def runTurn (o : Nat → CallOutcome) (parseQuery : String → Option String)
    (exec : String → String) (fuel : Nat) (msgs0 : List Message)
    (question : String) : TurnState :=
  fallbackStep o question
    (runInner o parseQuery exec fuel ⟨msgs0 ++ [userMsg question], [], 0⟩)

lemma innerStep_extends (o : Nat → CallOutcome) (parseQuery : String → Option String)
    (exec : String → String) (s : TurnState) :
    (∀ r, innerStep o parseQuery exec s = StepOut.done r →
      (∃ t, r.state.msgs = s.msgs ++ t) ∧
      (r.state.trace = s.trace ++ [true] ∨ r.state.trace = s.trace ++ [true, false])) ∧
    (∀ s2, innerStep o parseQuery exec s = StepOut.next s2 →
      (∃ t, s2.msgs = s.msgs ++ t) ∧ s2.trace = s.trace ++ [true, false]) := by
  have htp : ∀ calls, toolPhase parseQuery exec s.msgs calls =
      s.msgs ++ callBlocks parseQuery exec calls :=
    fun calls => toolPhase_eq_append parseQuery exec calls s.msgs
  constructor
  · intro r hr
    cases ho : o s.callIdx with
    | noChoice =>
      simp only [innerStep, ho] at hr
      cases hr
      exact ⟨⟨[], by simp [InnerResult.state]⟩, Or.inl rfl⟩
    | errToolUseFailed =>
      simp only [innerStep, ho] at hr
      cases hr
      exact ⟨⟨[], by simp [InnerResult.state]⟩, Or.inl rfl⟩
    | errOther =>
      simp only [innerStep, ho] at hr
      cases hr
      exact ⟨⟨[], by simp [InnerResult.state]⟩, Or.inl rfl⟩
    | ok content toolCalls =>
      simp only [innerStep, ho] at hr
      by_cases hc : contentTruthy content
      · rw [if_pos hc] at hr
        cases hr
        exact ⟨⟨[assistantMsg (content.getD "")], rfl⟩, Or.inl rfl⟩
      · rw [if_neg hc] at hr
        by_cases he : toolCalls.isEmpty
        · rw [if_pos he] at hr
          cases hr
          exact ⟨⟨[], by simp [InnerResult.state]⟩, Or.inl rfl⟩
        · rw [if_neg he] at hr
          cases ho2 : o (s.callIdx + 1) with
          | noChoice => simp only [ho2] at hr; cases hr
          | errToolUseFailed =>
            simp only [ho2] at hr
            cases hr
            exact ⟨⟨callBlocks parseQuery exec toolCalls, htp toolCalls⟩, Or.inr rfl⟩
          | errOther =>
            simp only [ho2] at hr
            cases hr
            exact ⟨⟨callBlocks parseQuery exec toolCalls, htp toolCalls⟩, Or.inr rfl⟩
          | ok c2 tcs2 =>
            simp only [ho2] at hr
            by_cases hc2 : contentTruthy c2
            · rw [if_pos hc2] at hr
              cases hr
              refine ⟨⟨callBlocks parseQuery exec toolCalls ++ [assistantMsg (c2.getD "")],
                ?_⟩, Or.inr rfl⟩
              show toolPhase parseQuery exec s.msgs toolCalls ++ [assistantMsg (c2.getD "")] =
                s.msgs ++ (callBlocks parseQuery exec toolCalls ++ [assistantMsg (c2.getD "")])
              rw [htp toolCalls, List.append_assoc]
            · rw [if_neg hc2] at hr
              cases hr
  · intro s2 hs2
    cases ho : o s.callIdx with
    | noChoice => simp only [innerStep, ho] at hs2; cases hs2
    | errToolUseFailed => simp only [innerStep, ho] at hs2; cases hs2
    | errOther => simp only [innerStep, ho] at hs2; cases hs2
    | ok content toolCalls =>
      simp only [innerStep, ho] at hs2
      by_cases hc : contentTruthy content
      · rw [if_pos hc] at hs2; cases hs2
      · rw [if_neg hc] at hs2
        by_cases he : toolCalls.isEmpty
        · rw [if_pos he] at hs2; cases hs2
        · rw [if_neg he] at hs2
          cases ho2 : o (s.callIdx + 1) with
          | noChoice =>
            simp only [ho2] at hs2
            cases hs2
            exact ⟨⟨callBlocks parseQuery exec toolCalls, htp toolCalls⟩, rfl⟩
          | errToolUseFailed => simp only [ho2] at hs2; cases hs2
          | errOther => simp only [ho2] at hs2; cases hs2
          | ok c2 tcs2 =>
            simp only [ho2] at hs2
            by_cases hc2 : contentTruthy c2
            · rw [if_pos hc2] at hs2; cases hs2
            · rw [if_neg hc2] at hs2
              cases hs2
              exact ⟨⟨callBlocks parseQuery exec toolCalls, htp toolCalls⟩, rfl⟩

lemma runInner_extends (o : Nat → CallOutcome) (parseQuery : String → Option String)
    (exec : String → String) :
    ∀ (fuel : Nat) (s : TurnState),
      ∃ t u, (runInner o parseQuery exec fuel s).state.msgs = s.msgs ++ t ∧
        (runInner o parseQuery exec fuel s).state.trace = s.trace ++ u := by
  intro fuel
  induction fuel with
  | zero =>
    intro s
    exact ⟨[], [], by simp [runInner, InnerResult.state], by simp [runInner, InnerResult.state]⟩
  | succ n ih =>
    intro s
    cases hstep : innerStep o parseQuery exec s with
    | done r =>
      obtain ⟨⟨t, ht⟩, htr⟩ := (innerStep_extends o parseQuery exec s).1 r hstep
      have hrun : runInner o parseQuery exec (n + 1) s = r := by
        rw [runInner, hstep]
      rcases htr with h | h
      · exact ⟨t, [true], by rw [hrun]; exact ht, by rw [hrun]; exact h⟩
      · exact ⟨t, [true, false], by rw [hrun]; exact ht, by rw [hrun]; exact h⟩
    | next s2 =>
      obtain ⟨t, u, ht, hu⟩ := ih s2
      obtain ⟨⟨t0, ht0⟩, htr0⟩ := (innerStep_extends o parseQuery exec s).2 s2 hstep
      have hrun : runInner o parseQuery exec (n + 1) s = runInner o parseQuery exec n s2 := by
        rw [runInner, hstep]
      refine ⟨t0 ++ t, [true, false] ++ u, ?_, ?_⟩
      · rw [hrun, ht, ht0, List.append_assoc]
      · rw [hrun, hu, htr0, List.append_assoc]

lemma runInner_succ_trace (o : Nat → CallOutcome) (parseQuery : String → Option String)
    (exec : String → String) (fuel : Nat) (s : TurnState) :
    ∃ u, (runInner o parseQuery exec (fuel + 1) s).state.trace = s.trace ++ [true] ++ u := by
  cases hstep : innerStep o parseQuery exec s with
  | done r =>
    have hrun : runInner o parseQuery exec (fuel + 1) s = r := by
      rw [runInner, hstep]
    rcases ((innerStep_extends o parseQuery exec s).1 r hstep).2 with h | h
    · exact ⟨[], by rw [hrun, h]; simp⟩
    · exact ⟨[false], by rw [hrun, h]; simp⟩
  | next s2 =>
    obtain ⟨t, u, ht, hu⟩ := runInner_extends o parseQuery exec fuel s2
    have htr := ((innerStep_extends o parseQuery exec s).2 s2 hstep).2
    have hrun : runInner o parseQuery exec (fuel + 1) s = runInner o parseQuery exec fuel s2 := by
      rw [runInner, hstep]
    exact ⟨[false] ++ u, by rw [hrun, hu, htr]; simp⟩

lemma fallbackStep_trace (o : Nat → CallOutcome) (question : String) (r : InnerResult) :
    (fallbackStep o question r).trace = r.state.trace ∨
    (fallbackStep o question r).trace = r.state.trace ++ [false] := by
  cases r with
  | settled s => exact Or.inl rfl
  | outOfFuel s => exact Or.inl rfl
  | thrown tuf s =>
    cases tuf with
    | false => exact Or.inl rfl
    | true =>
      right
      rw [fallbackStep]
      cases ho : o s.callIdx <;> simp [InnerResult.state]
      next c tcs =>
        by_cases hc : contentTruthy c <;> simp [hc]

lemma dropLast_append_singleton (l : List Message) (a : Message) :
    (l ++ [a]).dropLast = l := by
  simp

lemma head_cons_dropLast_append (x : Message) (l r : List Message) (hl : l ≠ []) :
    (((x :: l).dropLast) ++ r).head? = some x := by
  cases l with
  | nil => exact absurd rfl hl
  | cons y ys => rfl

lemma head_append_of_head (x : Message) (a b : List Message) (h : a.head? = some x) :
    (a ++ b).head? = some x := by
  cases a with
  | nil => cases h
  | cons y ys =>
    simp only [List.head?_cons] at h
    simpa using h

/-- Claim C3: when the first provider call of the turn (the `FirstPass` call,
issued right after the `user` message is appended) throws the
`tool_use_failed` error, the turn pops the just-appended `user` message,
re-appends a `user` message with the identical question — so the transcript
up to and including the user message is unchanged — and the next (and last)
provider call of the turn is issued with tools disabled; at most a final
assistant message follows. -/
theorem fallback_preserves_user_message (o : Nat → CallOutcome)
    (parseQuery : String → Option String) (exec : String → String)
    (msgs0 : List Message) (question : String) (fuel : Nat)
    (h : o 0 = CallOutcome.errToolUseFailed) :
    ∃ rest, (runTurn o parseQuery exec (fuel + 1) msgs0 question).msgs =
        msgs0 ++ [userMsg question] ++ rest ∧
      (rest = [] ∨ ∃ t, rest = [assistantMsg t]) ∧
      (runTurn o parseQuery exec (fuel + 1) msgs0 question).trace = [true, false] := by
  have hstep : innerStep o parseQuery exec ⟨msgs0 ++ [userMsg question], [], 0⟩ =
      StepOut.done (InnerResult.thrown true ⟨msgs0 ++ [userMsg question], [true], 1⟩) := by
    simp [innerStep, h]
  have hfb : runTurn o parseQuery exec (fuel + 1) msgs0 question =
      fallbackStep o question
        (InnerResult.thrown true ⟨msgs0 ++ [userMsg question], [true], 1⟩) := by
    rw [runTurn, runInner, hstep]
  cases ho1 : o 1 with
  | ok c tcs =>
    by_cases hc : contentTruthy c
    · refine ⟨[assistantMsg (c.getD "")], ?_, Or.inr ⟨c.getD "", rfl⟩, ?_⟩ <;>
        rw [hfb] <;>
        simp [fallbackStep, ho1, hc, dropLast_append_singleton]
    · refine ⟨[], ?_, Or.inl rfl, ?_⟩ <;>
        rw [hfb] <;>
        simp [fallbackStep, ho1, hc, dropLast_append_singleton]
  | noChoice =>
    refine ⟨[], ?_, Or.inl rfl, ?_⟩ <;>
      rw [hfb] <;>
      simp [fallbackStep, ho1, dropLast_append_singleton]
  | errToolUseFailed =>
    refine ⟨[], ?_, Or.inl rfl, ?_⟩ <;>
      rw [hfb] <;>
      simp [fallbackStep, ho1, dropLast_append_singleton]
  | errOther =>
    refine ⟨[], ?_, Or.inl rfl, ?_⟩ <;>
      rw [hfb] <;>
      simp [fallbackStep, ho1, dropLast_append_singleton]

/-- Witness for `fallback_preserves_user_message` with a concrete oracle
whose first call throws `tool_use_failed`. -/
theorem fallback_preserves_user_message_witness :
    ∃ rest,
      (runTurn (fun n => if n = 0 then CallOutcome.errToolUseFailed else CallOutcome.ok none [])
        (fun _ => none) (fun _ => "") 1 messages "hi").msgs =
        messages ++ [userMsg "hi"] ++ rest ∧
      (rest = [] ∨ ∃ t, rest = [assistantMsg t]) ∧
      (runTurn (fun n => if n = 0 then CallOutcome.errToolUseFailed else CallOutcome.ok none [])
        (fun _ => none) (fun _ => "") 1 messages "hi").trace = [true, false] :=
  fallback_preserves_user_message
    (fun n => if n = 0 then CallOutcome.errToolUseFailed else CallOutcome.ok none [])
    (fun _ => none) (fun _ => "") messages "hi" 0 (by decide)

/-- An oracle whose even-numbered calls request one tool call with no
content and whose odd-numbered calls return neither content nor tool calls. -/
def cexOracle : Nat → CallOutcome := fun n =>
  if n % 2 = 0 then CallOutcome.ok none [⟨"t1", "webSearch", "args"⟩]
  else CallOutcome.ok none []

/-- Claim C1 counterexample: with `cexOracle` a single user turn issues four
provider calls — first pass (tools on), second pass (tools off), and then,
because the second pass returned no content, the loop re-enters the first
pass (tools on again) — so the turn is not settled after the second pass and
is not capped at 3 provider calls. -/
theorem turn_call_cap_cex :
    (runTurn cexOracle (fun _ => some "q") (fun _ => "result") 2 messages "hello").trace =
      [true, false, true, false] := by
  decide

/-- Claim C1, amended: after the SecondPass completion call the turn is
Settled only when that call returned truthy content (the turn then made
exactly 2 provider calls) or threw an error (entering error handling, which
issues at most one further, tools-disabled, fallback call); when the second
pass returns falsy content — even alongside further tool-call requests,
which are not serviced — or no first choice, the loop re-enters FirstPass
with tools enabled: the third provider call of the turn is again a
tools-enabled call, so a turn is not capped at 3 provider calls. -/
theorem secondPass_settles_only_with_content (o : Nat → CallOutcome)
    (parseQuery : String → Option String) (exec : String → String)
    (msgs0 : List Message) (question : String) (fuel : Nat)
    (c0 : Option String) (calls : List ToolCall)
    (h0 : o 0 = CallOutcome.ok c0 calls) (hc0 : contentTruthy c0 = false)
    (hcalls : calls ≠ []) :
    (∀ c2 l2, contentTruthy c2 = true → o 1 = CallOutcome.ok c2 l2 →
      (runTurn o parseQuery exec (fuel + 2) msgs0 question).trace = [true, false]) ∧
    (∀ c2 l2, contentTruthy c2 = false → o 1 = CallOutcome.ok c2 l2 →
      (runTurn o parseQuery exec (fuel + 2) msgs0 question).trace.take 3 =
        [true, false, true]) ∧
    (o 1 = CallOutcome.noChoice →
      (runTurn o parseQuery exec (fuel + 2) msgs0 question).trace.take 3 =
        [true, false, true]) ∧
    (o 1 = CallOutcome.errToolUseFailed →
      (runTurn o parseQuery exec (fuel + 2) msgs0 question).trace =
        [true, false, false]) ∧
    (o 1 = CallOutcome.errOther →
      (runTurn o parseQuery exec (fuel + 2) msgs0 question).trace = [true, false]) := by
  have hne : calls.isEmpty = false := by
    cases calls with
    | nil => exact absurd rfl hcalls
    | cons a l => rfl
  have reenter : ∀ s3 : TurnState, s3.trace = [true, false] →
      innerStep o parseQuery exec ⟨msgs0 ++ [userMsg question], [], 0⟩ = StepOut.next s3 →
      (runTurn o parseQuery exec (fuel + 2) msgs0 question).trace.take 3 =
        [true, false, true] := by
    intro s3 htr hstep
    have hrun : runInner o parseQuery exec (fuel + 2) ⟨msgs0 ++ [userMsg question], [], 0⟩ =
        runInner o parseQuery exec (fuel + 1) s3 := by
      rw [show fuel + 2 = (fuel + 1) + 1 from rfl, runInner, hstep]
    obtain ⟨u, hu⟩ := runInner_succ_trace o parseQuery exec fuel s3
    rw [runTurn, hrun]
    rcases fallbackStep_trace o question (runInner o parseQuery exec (fuel + 1) s3)
      with hf | hf <;> rw [hf, hu, htr] <;> simp
  refine ⟨?_, ?_, ?_, ?_, ?_⟩
  · intro c2 l2 hct ho1
    have hstep : innerStep o parseQuery exec ⟨msgs0 ++ [userMsg question], [], 0⟩ =
        StepOut.done (InnerResult.settled
          ⟨toolPhase parseQuery exec (msgs0 ++ [userMsg question]) calls ++
              [assistantMsg (c2.getD "")],
            [true, false], 2⟩) := by
      simp [innerStep, h0, hc0, hne, ho1, hct]
    rw [runTurn, show fuel + 2 = (fuel + 1) + 1 from rfl, runInner, hstep, fallbackStep]
  · intro c2 l2 hcf ho1
    exact reenter ⟨toolPhase parseQuery exec (msgs0 ++ [userMsg question]) calls,
      [true, false], 2⟩ rfl (by simp [innerStep, h0, hc0, hne, ho1, hcf])
  · intro ho1
    exact reenter ⟨toolPhase parseQuery exec (msgs0 ++ [userMsg question]) calls,
      [true, false], 2⟩ rfl (by simp [innerStep, h0, hc0, hne, ho1])
  · intro ho1
    have hstep : innerStep o parseQuery exec ⟨msgs0 ++ [userMsg question], [], 0⟩ =
        StepOut.done (InnerResult.thrown true
          ⟨toolPhase parseQuery exec (msgs0 ++ [userMsg question]) calls,
            [true, false], 2⟩) := by
      simp [innerStep, h0, hc0, hne, ho1]
    rw [runTurn, show fuel + 2 = (fuel + 1) + 1 from rfl, runInner, hstep, fallbackStep]
    cases ho2 : o 2 with
    | ok c tcs => by_cases hc : contentTruthy c <;> simp [ho2, hc]
    | noChoice => simp [ho2]
    | errToolUseFailed => simp [ho2]
    | errOther => simp [ho2]
  · intro ho1
    have hstep : innerStep o parseQuery exec ⟨msgs0 ++ [userMsg question], [], 0⟩ =
        StepOut.done (InnerResult.thrown false
          ⟨toolPhase parseQuery exec (msgs0 ++ [userMsg question]) calls,
            [true, false], 2⟩) := by
      simp [innerStep, h0, hc0, hne, ho1]
    rw [runTurn, show fuel + 2 = (fuel + 1) + 1 from rfl, runInner, hstep, fallbackStep]

/-- Witness for `secondPass_settles_only_with_content`: an oracle whose
first call requests one tool call and whose second call returns content
`"hi"`; the turn settles after exactly two provider calls. -/
theorem secondPass_settles_only_with_content_witness :
    (runTurn (fun n => if n = 0 then CallOutcome.ok none [⟨"w1", "webSearch", "a"⟩]
        else CallOutcome.ok (some "hi") [])
      (fun _ => some "q") (fun _ => "res") 5 messages "query").trace = [true, false] :=
  (secondPass_settles_only_with_content
    (fun n => if n = 0 then CallOutcome.ok none [⟨"w1", "webSearch", "a"⟩]
        else CallOutcome.ok (some "hi") [])
    (fun _ => some "q") (fun _ => "res") messages "query" 3 none
    [⟨"w1", "webSearch", "a"⟩] (by decide) (by decide) (by decide)).1
    (some "hi") [] (by decide) (by decide)

/-- Claim C9: the transcript starts as the single fixed system message; the
intermediate transcript produced by the fallback path's pop-and-re-append
keeps that system message first, whatever the turn had appended before the
throw; and a whole user turn, whatever the provider, parser and executor do,
keeps the system message first. -/
theorem system_message_never_removed :
    messages.head? = some systemMessage ∧
    (∀ (msgs0 : List Message) (question : String) (extra : List Message),
      msgs0.head? = some systemMessage →
      ((msgs0 ++ [userMsg question] ++ extra).dropLast ++ [userMsg question]).head? =
        some systemMessage) ∧
    (∀ (o : Nat → CallOutcome) (parseQuery : String → Option String)
      (exec : String → String) (fuel : Nat) (msgs0 : List Message) (question : String),
      msgs0.head? = some systemMessage →
      (runTurn o parseQuery exec fuel msgs0 question).msgs.head? = some systemMessage) := by
  refine ⟨rfl, ?_, ?_⟩
  · intro msgs0 question extra h
    cases msgs0 with
    | nil => cases h
    | cons a ms =>
      have ha : a = systemMessage := by
        simp only [List.head?_cons] at h
        simpa using h
      subst ha
      have hne : ms ++ [userMsg question] ++ extra ≠ [] := by simp
      simp only [List.cons_append]
      exact head_cons_dropLast_append _ _ _ hne
  · intro o parseQuery exec fuel msgs0 question h
    cases msgs0 with
    | nil => cases h
    | cons a ms =>
      have ha : a = systemMessage := by
        simp only [List.head?_cons] at h
        simpa using h
      subst ha
      obtain ⟨t, u, ht, hu⟩ := runInner_extends o parseQuery exec fuel
        ⟨(systemMessage :: ms) ++ [userMsg question], [], 0⟩
      rw [runTurn]
      cases hr : runInner o parseQuery exec fuel
          ⟨(systemMessage :: ms) ++ [userMsg question], [], 0⟩ with
      | settled s =>
        rw [hr] at ht
        simp only [InnerResult.state] at ht
        rw [fallbackStep, ht]
        simp
      | outOfFuel s =>
        rw [hr] at ht
        simp only [InnerResult.state] at ht
        rw [fallbackStep, ht]
        simp
      | thrown tuf s =>
        rw [hr] at ht
        simp only [InnerResult.state] at ht
        cases tuf with
        | false =>
          rw [fallbackStep, ht]
          simp
        | true =>
          have hmsgs : s.msgs = systemMessage :: (ms ++ [userMsg question] ++ t) := by
            rw [ht]
            simp [List.cons_append, List.append_assoc]
          have hnet : ms ++ [userMsg question] ++ t ≠ [] := by simp
          have hhead : (s.msgs.dropLast ++ [userMsg question]).head? = some systemMessage := by
            rw [hmsgs]
            exact head_cons_dropLast_append _ _ _ hnet
          rw [fallbackStep]
          cases ho : o s.callIdx with
          | ok c tcs =>
            by_cases hc : contentTruthy c
            · simp only [ho, if_pos hc]
              exact head_append_of_head _ _ _ hhead
            · simp only [ho, if_neg hc]
              exact hhead
          | noChoice =>
            simp only [ho]
            exact hhead
          | errToolUseFailed =>
            simp only [ho]
            exact hhead
          | errOther =>
            simp only [ho]
            exact hhead

/-- Witness for `system_message_never_removed` on a concrete one-call turn
starting from the initial transcript. -/
theorem system_message_never_removed_witness :
    (runTurn (fun _ => CallOutcome.noChoice) (fun _ => none) (fun _ => "") 1
      messages "hi").msgs.head? = some systemMessage :=
  system_message_never_removed.2.2 (fun _ => CallOutcome.noChoice) (fun _ => none)
    (fun _ => "") 1 messages "hi" rfl

end GenAI
